import Mathlib

/-!
Shallow embedding of the `gr_tools` Python repository and proofs about it.

Modules embedded:
* `gr_tools/parameter_space.py`  (namespace `GrTools.ParameterSpace`)
* `gr_tools/install_grc.py`      (namespace `GrTools.InstallGrc`)
* `gr_tools/run_simulator_custom.py` (namespace `GrTools.RunSimulatorCustom`)
* `gr_tools/send_message.py`     (namespace `GrTools.SendMessage`)
* `gr_tools/run_sim.py`          (namespace `GrTools.RunSim`)

Python dictionaries are modelled as association lists that preserve key
insertion order (as Python dicts do); Python floats appearing only in
order comparisons are modelled as rationals; external effects (the `grcc`
compiler, sockets, GNU Radio engine calls) are modelled as oracles or as
event traces.
-/

namespace GrTools

namespace ParameterSpace

/-- Cartesian product of a list of lists in the iteration order of Python's
`itertools.product`: the first list is the most significant axis, the last
list varies fastest. -/
def product {α : Type} : List (List α) → List (List α)
  | [] => [[]]
  | l :: rest => l.flatMap (fun x => (product rest).map (fun t => x :: t))

/-- Embedding of `get_param_space` from `gr_tools/parameter_space.py`.
`param_dict` is the Python dict, modelled as an association list in key
insertion order; the result models the list of dicts built by
`dict(zip(keys, i))` for `i in itertools.product(*param_dict.values())`. -/
def get_param_space {α : Type} (param_dict : List (String × List α)) :
    List (List (String × α)) :=
  (product (param_dict.map Prod.snd)).map
    (fun i => List.zip (param_dict.map Prod.fst) i)

theorem product_length {α : Type} (ls : List (List α)) :
    (product ls).length = (ls.map List.length).prod := by
  induction ls with
  | nil => rfl
  | cons l rest ih =>
    simp [product, List.length_flatMap, Function.comp_def, ih]

theorem mem_product_length {α : Type} {ls : List (List α)} {c : List α}
    (h : c ∈ product ls) : c.length = ls.length := by
  induction ls generalizing c with
  | nil => simp [product] at h; simp [h]
  | cons l rest ih =>
    simp [product] at h
    obtain ⟨x, _, t, ht, rfl⟩ := h
    simp [ih ht]

theorem get_param_space_length {α : Type} (pd : List (String × List α)) :
    (get_param_space pd).length = (pd.map (fun kv => kv.2.length)).prod := by
  simp [get_param_space, product_length, Function.comp_def]

/-- C2: for every mapping from parameter names to non-empty candidate value
lists, `get_param_space` returns a list whose length equals the product of
the lengths of the candidate lists, and every dictionary in the returned
list has exactly the same key list (hence the same key set) as the input
mapping. -/
theorem get_param_space_card_and_keys {α : Type} (pd : List (String × List α))
    (_hne : ∀ kv ∈ pd, kv.2 ≠ []) :
    (get_param_space pd).length = (pd.map (fun kv => kv.2.length)).prod ∧
    ∀ d ∈ get_param_space pd, d.map Prod.fst = pd.map Prod.fst := by
  refine ⟨get_param_space_length pd, ?_⟩
  intro d hd
  simp only [get_param_space, List.mem_map] at hd
  obtain ⟨c, hc, rfl⟩ := hd
  have hlen : c.length = (pd.map Prod.snd).length := mem_product_length hc
  rw [List.map_fst_zip]
  simp [hlen]

theorem get_param_space_card_and_keys_witness :
    (∀ kv ∈ [("a", [0, 1]), ("b", [2, 3, 4])], kv.2 ≠ ([] : List Nat)) ∧
    ((get_param_space [("a", [0, 1]), ("b", [2, 3, 4])]).length =
        ([("a", [0, 1]), ("b", [2, 3, 4])].map (fun kv => kv.2.length)).prod ∧
      ∀ d ∈ get_param_space [("a", [0, 1]), ("b", [2, 3, 4])],
        d.map Prod.fst = [("a", [0, 1]), ("b", [2, 3, 4])].map Prod.fst) :=
  ⟨by decide, get_param_space_card_and_keys _ (by decide)⟩

/-- C9: with no non-emptiness restriction, the length of the list returned
by `get_param_space` equals the product of the lengths of the value lists;
for the empty mapping it returns the one-element list containing the empty
dictionary, and whenever at least one key maps to an empty list it returns
the empty list. -/
theorem get_param_space_length_total {α : Type} :
    (∀ pd : List (String × List α),
        (get_param_space pd).length = (pd.map (fun kv => kv.2.length)).prod) ∧
    get_param_space ([] : List (String × List α)) = [[]] ∧
    ∀ pd : List (String × List α), (∃ kv ∈ pd, kv.2 = []) →
      get_param_space pd = [] := by
  refine ⟨get_param_space_length, rfl, ?_⟩
  rintro pd ⟨kv, hkv, hnil⟩
  have h0 : (get_param_space pd).length = 0 := by
    rw [get_param_space_length]
    apply List.prod_eq_zero
    simp only [List.mem_map]
    exact ⟨kv, hkv, by simp [hnil]⟩
  exact List.length_eq_zero.mp h0

theorem get_param_space_length_total_witness :
    (∃ kv ∈ [("a", ([] : List Nat))], kv.2 = []) ∧
    get_param_space [("a", ([] : List Nat))] = [] :=
  ⟨⟨("a", []), by decide, rfl⟩,
    get_param_space_length_total.2.2 _ ⟨("a", []), by decide, rfl⟩⟩

/-- All index vectors for the dimension list `dims`, enumerated with the
rightmost coordinate varying fastest; this enumeration is lexicographically
increasing with the leftmost coordinate most significant. -/
def lexEnum : List Nat → List (List Nat)
  | [] => [[]]
  | d :: rest => (List.range d).flatMap (fun i => (lexEnum rest).map (fun t => i :: t))

/-- Pick from each list of `ls` the entry at the corresponding index of
`iv` (with a default value for out-of-range indices). -/
def select {α : Type} (dflt : α) (ls : List (List α)) (iv : List Nat) : List α :=
  (ls.zip iv).map (fun p => p.1.getD p.2 dflt)

theorem range_map_getD {α : Type} (dflt : α) (l : List α) :
    (List.range l.length).map (fun i => l.getD i dflt) = l := by
  induction l with
  | nil => rfl
  | cons a l ih =>
    rw [List.length_cons, List.range_succ_eq_map, List.map_cons, List.map_map]
    simp only [Function.comp_def, List.getD_cons_succ, List.getD_cons_zero]
    rw [ih]

theorem product_eq_lexEnum {α : Type} (dflt : α) (ls : List (List α)) :
    product ls = (lexEnum (ls.map List.length)).map (select dflt ls) := by
  induction ls with
  | nil => rfl
  | cons l rest ih =>
    simp only [product, List.map_cons, lexEnum]
    conv_lhs => rw [← range_map_getD dflt l]
    rw [List.flatMap_map]
    simp only [List.map_flatMap, List.map_map, ih, Function.comp_def]
    apply List.flatMap_congr ?_
    intro i _
    simp [select]

theorem pairwise_flatMap {α β : Type} {R : β → β → Prop} {f : α → List β}
    {l : List α} (h1 : ∀ a ∈ l, (f a).Pairwise R)
    (h2 : l.Pairwise (fun a b => ∀ x ∈ f a, ∀ y ∈ f b, R x y)) :
    (l.flatMap f).Pairwise R := by
  induction l with
  | nil => simp
  | cons a l ih =>
    rw [List.flatMap_cons, List.pairwise_append]
    rw [List.pairwise_cons] at h2
    refine ⟨h1 a (by simp), ih (fun b hb => h1 b (by simp [hb])) h2.2, ?_⟩
    intro x hx y hy
    rw [List.mem_flatMap] at hy
    obtain ⟨b, hb, hyb⟩ := hy
    exact h2.1 b hb x hx y hyb

theorem lexEnum_pairwise (dims : List Nat) :
    (lexEnum dims).Pairwise (List.Lex (· < ·)) := by
  induction dims with
  | nil => simp [lexEnum]
  | cons d rest ih =>
    rw [lexEnum]
    apply pairwise_flatMap
    · intro i _
      exact ih.map _ (fun t t' h => List.Lex.cons h)
    · apply (List.pairwise_lt_range d).imp
      intro i j hij
      simp only [List.mem_map, forall_exists_index, and_imp]
      rintro x t _ rfl y t' _ rfl
      exact List.Lex.rel hij

theorem lexEnum_mem (dims iv : List Nat) :
    iv ∈ lexEnum dims ↔ List.Forall₂ (· < ·) iv dims := by
  induction dims generalizing iv with
  | nil => simp [lexEnum, List.forall₂_nil_right_iff]
  | cons d rest ih =>
    simp only [lexEnum, List.mem_flatMap, List.mem_map, List.mem_range,
      List.forall₂_cons_right_iff, ih]
    constructor
    · rintro ⟨i, hi, t, ht, rfl⟩
      exact ⟨i, t, hi, ht, rfl⟩
    · rintro ⟨i, t, hi, ht, rfl⟩
      exact ⟨i, hi, t, ht, rfl⟩

/-- C3: for every mapping (with its fixed key iteration order), the list
returned by `get_param_space` is in the deterministic order of standard
Cartesian-product iteration: its entries are exactly the dictionaries built
from the index vectors of `lexEnum`, an enumeration of all in-range index
vectors that is strictly increasing in the lexicographic order in which the
right-most key varies fastest. -/
theorem get_param_space_order {α : Type} (dflt : α) (pd : List (String × List α)) :
    (get_param_space pd =
      (lexEnum ((pd.map Prod.snd).map List.length)).map
        (fun iv => (pd.map Prod.fst).zip (select dflt (pd.map Prod.snd) iv))) ∧
    (∀ dims : List Nat, (lexEnum dims).Pairwise (List.Lex (· < ·))) ∧
    (∀ dims iv : List Nat, iv ∈ lexEnum dims ↔ List.Forall₂ (· < ·) iv dims) := by
  refine ⟨?_, lexEnum_pairwise, lexEnum_mem⟩
  rw [get_param_space, product_eq_lexEnum dflt, List.map_map]
  rfl

end ParameterSpace

namespace InstallGrc

/-- Number of entries still marked un-installed in the `file_passed` array. -/
def numUnpassed (passed : List Bool) : Nat := (passed.filter (fun b => !b)).length

/-- One pass of the `while` loop body of `install_grc_files` from
`gr_tools/install_grc.py`: walk the file list with its index, skip files
already marked passed, and for the rest consult `oracle` (the outcome of the
`grcc` invocation for the file at that index: `true` iff the shell command
returned exit status 0, so that no exception is raised and the file is marked
passed).  Returns the updated `file_passed` array and `num_installed`. -/
def onePass (oracle : Nat → Bool) : List Bool → Nat → List Bool × Nat
  | [], _ => ([], 0)
  | b :: rest, i =>
    let r := onePass oracle rest (i + 1)
    if b then (true :: r.1, r.2)
    else if oracle i then (true :: r.1, r.2 + 1)
    else (false :: r.1, r.2)

theorem onePass_conservation (oracle : Nat → Bool) :
    ∀ (l : List Bool) (i : Nat),
      (onePass oracle l i).2 + numUnpassed (onePass oracle l i).1 = numUnpassed l := by
  intro l
  induction l with
  | nil => intro i; rfl
  | cons b rest ih =>
    intro i
    by_cases hb : b
    · simp [onePass, hb, numUnpassed] at ih ⊢
      exact ih (i + 1)
    · by_cases ho : oracle i
      · simp [onePass, hb, ho, numUnpassed] at ih ⊢
        have := ih (i + 1)
        omega
      · simp [onePass, hb, ho, numUnpassed] at ih ⊢
        have := ih (i + 1)
        omega

/-- The multi-pass loop of `install_grc_files`: run passes over the
`file_passed` array, breaking when a pass installs zero new files or when
every file has passed.  `oracle p i` is the outcome of the `grcc` invocation
in pass `p` for the file at index `i`; the recursive call shifts the oracle by
one pass.  Returns the final `file_passed` array together with the number of
passes executed. -/
def install_grc_files (oracle : Nat → Nat → Bool) (passed : List Bool) :
    List Bool × Nat :=
  if h : (onePass (oracle 0) passed 0).2 = 0 ∨
      (onePass (oracle 0) passed 0).1.all (fun b => b) then
    ((onePass (oracle 0) passed 0).1, 1)
  else
    ((install_grc_files (fun a i => oracle (a + 1) i) (onePass (oracle 0) passed 0).1).1,
     (install_grc_files (fun a i => oracle (a + 1) i) (onePass (oracle 0) passed 0).1).2 + 1)
termination_by numUnpassed passed
decreasing_by
  have hc := onePass_conservation (oracle 0) passed 0
  push_neg at h
  omega

/-- The `file_passed` array after `j` passes of the loop. -/
def stateAfter (oracle : Nat → Nat → Bool) (s : List Bool) : Nat → List Bool
  | 0 => s
  | j + 1 => stateAfter (fun a i => oracle (a + 1) i) (onePass (oracle 0) s 0).1 j

/-- The number of files newly installed in pass `j` (counting from 0). -/
def installedIn (oracle : Nat → Nat → Bool) (s : List Bool) : Nat → Nat
  | 0 => (onePass (oracle 0) s 0).2
  | j + 1 => installedIn (fun a i => oracle (a + 1) i) (onePass (oracle 0) s 0).1 j

theorem install_grc_files_spec (oracle : Nat → Nat → Bool) (s : List Bool) :
    1 ≤ (install_grc_files oracle s).2 ∧
    (install_grc_files oracle s).2 ≤ numUnpassed s + 1 ∧
    (install_grc_files oracle s).1 = stateAfter oracle s (install_grc_files oracle s).2 ∧
    (installedIn oracle s ((install_grc_files oracle s).2 - 1) = 0 ∨
      (install_grc_files oracle s).1.all (fun b => b)) ∧
    (∀ j, j + 1 < (install_grc_files oracle s).2 →
      installedIn oracle s j ≠ 0 ∧
        ¬ (stateAfter oracle s (j + 1)).all (fun b => b)) := by
  induction oracle, s using install_grc_files.induct with
  | case1 oracle s h =>
    rw [install_grc_files, dif_pos h]
    refine ⟨le_refl 1, by omega, rfl, ?_, ?_⟩
    · exact h
    · intro j hj; omega
  | case2 oracle s h ih =>
    rw [install_grc_files, dif_neg h]
    push_neg at h
    obtain ⟨ih1, ih2, ih3, ih4, ih5⟩ := ih
    have hc := onePass_conservation (oracle 0) s 0
    refine ⟨by omega, by omega, ?_, ?_, ?_⟩
    · show _ = stateAfter oracle s (_ + 1)
      rw [stateAfter]
      exact ih3
    · have hstep : ∀ j, installedIn oracle s (j + 1) =
          installedIn (fun a i => oracle (a + 1) i) (onePass (oracle 0) s 0).1 j :=
        fun j => rfl
      rcases Nat.exists_eq_add_of_le ih1 with ⟨k, hk⟩
      have : (install_grc_files (fun a i => oracle (a + 1) i)
          (onePass (oracle 0) s 0).1).2 + 1 - 1 =
          ((install_grc_files (fun a i => oracle (a + 1) i)
            (onePass (oracle 0) s 0).1).2 - 1) + 1 := by omega
      rw [this, hstep]
      exact ih4
    · intro j hj
      match j with
      | 0 =>
        refine ⟨h.1, ?_⟩
        show ¬ (stateAfter (fun a i => oracle (a + 1) i)
          (onePass (oracle 0) s 0).1 0).all (fun b => b)
        exact h.2
      | j' + 1 =>
        have hj' : j' + 1 < (install_grc_files (fun a i => oracle (a + 1) i)
            (onePass (oracle 0) s 0).1).2 := by omega
        exact ih5 j' hj'

theorem numUnpassed_replicate (n : Nat) :
    numUnpassed (List.replicate n false) = n := by
  simp [numUnpassed, List.filter_replicate]

/-- C1: for every input file list (all initially un-installed) and every
behaviour of the external compiler (the oracle), the multi-pass loop of
`install_grc_files` terminates — it is a total function — after a number of
passes `r.2` with `1 ≤ r.2 ≤ n + 1`; the loop stops exactly when a pass
installs zero new files or when every file has been installed: the final pass
satisfies that condition and no earlier pass does. -/
theorem install_grc_files_terminates (oracle : Nat → Nat → Bool) (n : Nat) :
    1 ≤ (install_grc_files oracle (List.replicate n false)).2 ∧
    (install_grc_files oracle (List.replicate n false)).2 ≤ n + 1 ∧
    (install_grc_files oracle (List.replicate n false)).1 =
      stateAfter oracle (List.replicate n false)
        (install_grc_files oracle (List.replicate n false)).2 ∧
    (installedIn oracle (List.replicate n false)
        ((install_grc_files oracle (List.replicate n false)).2 - 1) = 0 ∨
      (install_grc_files oracle (List.replicate n false)).1.all (fun b => b)) ∧
    (∀ j, j + 1 < (install_grc_files oracle (List.replicate n false)).2 →
      installedIn oracle (List.replicate n false) j ≠ 0 ∧
        ¬ (stateAfter oracle (List.replicate n false) (j + 1)).all (fun b => b)) := by
  have h := install_grc_files_spec oracle (List.replicate n false)
  rwa [numUnpassed_replicate] at h

/-- A directory tree entry as seen by `os.listdir`: either a file or a
subdirectory (the `os.path.isdir` test distinguishes the two).  Path strings
are modelled as lists of characters. -/
inductive Entry : Type where
  | file (name : List Char)
  | dir (name : List Char) (entries : List Entry)

/-- The fixed extension constant `GRC_EXT = ".grc"`. -/
def GRC_EXT : List Char := ['.', 'g', 'r', 'c']

/-- Embedding of `list_files` from `gr_tools/install_grc.py`: walk the
entries of `c_dir` in `os.listdir` order; recurse into subdirectories; keep a
file when the full path `c_dir + "/" + name` ends with `GRC_EXT`
(`new_file[-len(GRC_EXT):] == GRC_EXT`). -/
def list_files (c_dir : List Char) : List Entry → List (List Char)
  | [] => []
  | Entry.file name :: rest =>
    (if GRC_EXT <:+ (c_dir ++ '/' :: name) then [c_dir ++ '/' :: name] else []) ++
      list_files c_dir rest
  | Entry.dir name es :: rest =>
    list_files (c_dir ++ '/' :: name) es ++ list_files c_dir rest

/-- All files (never directories) of the tree, with their full path and their
bare name, in the same traversal order as `list_files`. -/
def allFiles (c_dir : List Char) : List Entry → List (List Char × List Char)
  | [] => []
  | Entry.file name :: rest => (c_dir ++ '/' :: name, name) :: allFiles c_dir rest
  | Entry.dir name es :: rest =>
    allFiles (c_dir ++ '/' :: name) es ++ allFiles c_dir rest

theorem prefix_append_sep {Q : List Char} (m t : List Char) (hQ : '/' ∉ Q) :
    Q <+: (m ++ '/' :: t) ↔ Q <+: m := by
  induction Q generalizing m with
  | nil => simp
  | cons a Q ih =>
    match m with
    | [] =>
      simp only [List.nil_append]
      rw [List.cons_prefix_cons]
      constructor
      · rintro ⟨rfl, -⟩
        exact absurd (List.mem_cons_self _ _) hQ
      · intro h
        simp at h
    | b :: m' =>
      rw [List.cons_append, List.cons_prefix_cons, List.cons_prefix_cons]
      have hQ' : '/' ∉ Q := fun h => hQ (List.mem_cons_of_mem _ h)
      rw [ih m' hQ']

theorem suffix_iff_rev (P big : List Char) :
    P <:+ big ↔ P.reverse <+: big.reverse := by
  have h := @List.reverse_suffix Char P.reverse big.reverse
  rw [List.reverse_reverse, List.reverse_reverse] at h
  exact h

theorem suffix_slash_iff (d n : List Char) :
    GRC_EXT <:+ (d ++ '/' :: n) ↔ GRC_EXT <:+ n := by
  rw [suffix_iff_rev, suffix_iff_rev GRC_EXT n]
  have hrev : (d ++ '/' :: n).reverse = n.reverse ++ '/' :: d.reverse := by
    simp
  rw [hrev]
  exact prefix_append_sep _ _ (by decide)

theorem allFiles_shape (d : List Char) (es : List Entry) :
    ∀ p ∈ allFiles d es, ∃ d', p.1 = d' ++ '/' :: p.2 := by
  induction d, es using allFiles.induct with
  | case1 d => simp [allFiles]
  | case2 d name rest ih =>
    intro p hp
    rw [allFiles, List.mem_cons] at hp
    rcases hp with rfl | hp
    · exact ⟨d, rfl⟩
    · exact ih p hp
  | case3 d name es rest ih1 ih2 =>
    intro p hp
    rw [allFiles, List.mem_append] at hp
    rcases hp with hp | hp
    · exact ih1 p hp
    · exact ih2 p hp

theorem list_files_eq_filter_path (d : List Char) (es : List Entry) :
    list_files d es =
      ((allFiles d es).map Prod.fst).filter (fun s => decide (GRC_EXT <:+ s)) := by
  induction d, es using list_files.induct with
  | case1 d => simp [list_files, allFiles]
  | case2 d name rest ih =>
    rw [list_files, allFiles, List.map_cons, List.filter_cons, ih]
    by_cases h : GRC_EXT <:+ (d ++ '/' :: name) <;> simp [h]
  | case3 d name es rest ih1 ih2 =>
    rw [list_files, allFiles, List.map_append, List.filter_append, ih1, ih2]

theorem list_files_eq_filter_name (d : List Char) (es : List Entry) :
    list_files d es =
      ((allFiles d es).filter (fun p => decide (GRC_EXT <:+ p.2))).map Prod.fst := by
  rw [list_files_eq_filter_path, List.filter_map]
  congr 1
  apply List.filter_congr
  intro p hp
  obtain ⟨d', hd'⟩ := allFiles_shape d es p hp
  simp only [Function.comp_def, hd']
  rw [decide_eq_decide]
  exact suffix_slash_iff d' p.2

theorem list_files_rooted (d : List Char) (es : List Entry) :
    ∀ x ∈ list_files d es, (d ++ ['/']) <+: x := by
  induction d, es using list_files.induct with
  | case1 d => simp [list_files]
  | case2 d name rest ih =>
    intro x hx
    rw [list_files, List.mem_append] at hx
    rcases hx with hx | hx
    · have hx' : x = d ++ '/' :: name := by
        by_cases h : GRC_EXT <:+ (d ++ '/' :: name) <;> simp [h] at hx
        · exact hx
      subst hx'
      have : d ++ '/' :: name = (d ++ ['/']) ++ name := by simp
      rw [this]
      exact List.prefix_append _ _
    · exact ih x hx
  | case3 d name es rest ih1 ih2 =>
    intro x hx
    rw [list_files, List.mem_append] at hx
    rcases hx with hx | hx
    · have h1 := ih1 x hx
      have h2 : (d ++ ['/']) <+: ((d ++ '/' :: name) ++ ['/']) := by
        have : (d ++ '/' :: name) ++ ['/'] = (d ++ ['/']) ++ (name ++ ['/']) := by simp
        rw [this]
        exact List.prefix_append _ _
      exact h2.trans h1
    · exact ih2 x hx

/-- C7: for every directory tree, `list_files` returns exactly the files
whose full path — equivalently, whose bare name — ends with the fixed
extension `.grc`, at every nesting depth; only files (never directories)
appear, and every returned path is a full path extending the supplied root
directory (so it is absolute whenever the root is). -/
theorem list_files_spec (d : List Char) (es : List Entry) :
    (list_files d es =
      ((allFiles d es).map Prod.fst).filter (fun s => decide (GRC_EXT <:+ s))) ∧
    (list_files d es =
      ((allFiles d es).filter (fun p => decide (GRC_EXT <:+ p.2))).map Prod.fst) ∧
    ∀ x ∈ list_files d es, (d ++ ['/']) <+: x :=
  ⟨list_files_eq_filter_path d es, list_files_eq_filter_name d es,
    list_files_rooted d es⟩

end InstallGrc

namespace RunSimulatorCustom

/-- A port value in a connection 4-tuple: a Python `int` (sample-data port)
or `str` (message port), as tested by `isinstance`. -/
inductive PortVal : Type where
  | intPort (n : Int)
  | strPort (s : String)
deriving DecidableEq

/-- Python exceptions raised by the loader. -/
inductive LoadErr : Type where
  | keyError (k : String)
  | assertionError (msg : String)
  | runtimeError (msg : String)
deriving DecidableEq

/-- A connection 4-tuple `(conn[0], conn[1], conn[2], conn[3])`. -/
structure Conn : Type where
  src : String
  srcPort : PortVal
  tgt : String
  tgtPort : PortVal
deriving DecidableEq

/-- Observable actions of `load_and_run_scenario`, recorded as a trace:
constructing a component, wiring a streaming (`top.connect`) or message
(`top.msg_connect`) link, and running the flowgraph. -/
inductive Event (C : Type) : Type where
  | constructed (name : String)
  | connect (src : C) (srcPort : Int) (tgt : C) (tgtPort : Int)
  | msgConnect (src : C) (srcPort : PortVal) (tgt : C) (tgtPort : PortVal)
  | started
  | slept (duration : ℚ)
  | prompted
  | stopped
  | ran
deriving DecidableEq

/-- The `simulation` settings record: a `type` tag plus the duration found at
`simm["value"]["duration"]` when present. -/
structure SimSpec : Type where
  type : String
  duration : Option ℚ

/-- The settings dictionary of `load_and_run_scenario`, with the presence of
each of the three required keys modelled by `Option`.  Components are the
`(key name, type "key" field, constructor-argument "val" field)` records in
dict order. -/
structure Scenario (A : Type) : Type where
  components : Option (List (String × String × A))
  connections : Option (List Conn)
  simulation : Option SimSpec

/-- The component-construction loop of `load_and_run_scenario`.  The
per-type dispatch (`usrp_source` / `usrp_sink` routed to the UHD helpers,
anything else looked up in `comp_dict`, raising on lookup or construction
failure) is abstracted as the `construct` argument.  Emits one
`Event.constructed` per successfully built component, stopping at the first
failure. -/
def buildComponents {A C : Type} (construct : String → A → Except LoadErr C) :
    List (String × String × A) → List (Event C) × Except LoadErr (List (String × C))
  | [] => ([], Except.ok [])
  | (name, tkey, args) :: rest =>
    match construct tkey args with
    | Except.error e => ([], Except.error e)
    | Except.ok c =>
      let r := buildComponents construct rest
      (Event.constructed name :: r.1, r.2.map (fun l => (name, c) :: l))

/-- Dictionary access `comp_obj[name]`: `KeyError` when absent. -/
def lookupObj {C : Type} (comp_obj : List (String × C)) (name : String) :
    Except LoadErr C :=
  match comp_obj.find? (fun p => p.1 = name) with
  | some p => Except.ok p.2
  | none => Except.error (LoadErr.keyError name)

/-- `isinstance(p, int)` for both ports: the condition of the streaming
branch in the connection loop. -/
def bothInt : PortVal → PortVal → Bool
  | PortVal.intPort _, PortVal.intPort _ => true
  | _, _ => false

/-- Both ports are strings. -/
def bothStr : PortVal → PortVal → Bool
  | PortVal.strPort _, PortVal.strPort _ => true
  | _, _ => false

/-- The connection loop of `load_and_run_scenario`: look up the two endpoint
objects, then wire with `top.connect` when both ports are `int`, otherwise
with `top.msg_connect`. -/
def wireConnections {C : Type} (comp_obj : List (String × C)) :
    List Conn → List (Event C) × Except LoadErr Unit
  | [] => ([], Except.ok ())
  | conn :: rest =>
    match lookupObj comp_obj conn.src with
    | Except.error e => ([], Except.error e)
    | Except.ok csrc =>
      match lookupObj comp_obj conn.tgt with
      | Except.error e => ([], Except.error e)
      | Except.ok ctgt =>
        let ev := match conn.srcPort, conn.tgtPort with
          | PortVal.intPort a, PortVal.intPort b => Event.connect csrc a ctgt b
          | _, _ => Event.msgConnect csrc conn.srcPort ctgt conn.tgtPort
        let r := wireConnections comp_obj rest
        (ev :: r.1, r.2)

/-- The run-mode dispatch at the end of `load_and_run_scenario`. -/
def runSim {C : Type} (simm : SimSpec) : List (Event C) × Except LoadErr Unit :=
  if simm.type.toLower = "time" then
    match simm.duration with
    | some dur => ([Event.started, Event.slept dur, Event.stopped], Except.ok ())
    | none => ([Event.started], Except.error (LoadErr.keyError "duration"))
  else if simm.type.toLower = "user" then
    ([Event.started, Event.prompted, Event.stopped], Except.ok ())
  else if simm.type.toLower = "data" then
    ([Event.ran], Except.ok ())
  else ([], Except.error (LoadErr.runtimeError "Unexpected type of simulation"))

/-- Embedding of `load_and_run_scenario` from
`gr_tools/run_simulator_custom.py` on an already-parsed settings dict: the
three required keys are read first (raising `KeyError` at the first missing
one), then components are constructed, connections wired and the run mode
executed.  Returns the event trace and the outcome. -/
def load_and_run_scenario {A C : Type} (construct : String → A → Except LoadErr C)
    (settings : Scenario A) : List (Event C) × Except LoadErr Unit :=
  match settings.components with
  | none => ([], Except.error (LoadErr.keyError "components"))
  | some comps =>
    match settings.connections with
    | none => ([], Except.error (LoadErr.keyError "connections"))
    | some conns =>
      match settings.simulation with
      | none => ([], Except.error (LoadErr.keyError "simulation"))
      | some simm =>
        let b := buildComponents construct comps
        match b.2 with
        | Except.error e => (b.1, Except.error e)
        | Except.ok comp_obj =>
          let w := wireConnections comp_obj conns
          match w.2 with
          | Except.error e => (b.1 ++ w.1, Except.error e)
          | Except.ok _ =>
            let r := runSim simm
            (b.1 ++ w.1 ++ r.1, r.2)

/-- The wiring event chosen for a streaming link. -/
def isStreamEvent {C : Type} : Event C → Bool
  | Event.connect _ _ _ _ => true
  | _ => false

/-- The wiring event chosen for an asynchronous message link. -/
def isMsgEvent {C : Type} : Event C → Bool
  | Event.msgConnect _ _ _ _ => true
  | _ => false

/-- C4: for every connection 4-tuple processed by the connection loop of
`load_and_run_scenario`, the declared port types determine the wiring: the
emitted event is a streaming `connect` exactly when both ports are integers,
and a `msg_connect` message link otherwise — in particular every
two-integer-port connection becomes a streaming link and every
two-string-port connection becomes a message link. -/
theorem wireConnections_dispatch {C : Type} (comp_obj : List (String × C))
    (conns : List Conn)
    (h : (wireConnections comp_obj conns).2 = Except.ok ()) :
    List.Forall₂
      (fun (conn : Conn) (ev : Event C) =>
        (isStreamEvent ev = bothInt conn.srcPort conn.tgtPort ∧
          isMsgEvent ev = !bothInt conn.srcPort conn.tgtPort) ∧
        (bothStr conn.srcPort conn.tgtPort = true → isMsgEvent ev = true))
      conns (wireConnections comp_obj conns).1 := by
  induction conns with
  | nil => exact List.Forall₂.nil
  | cons conn rest ih =>
    obtain ⟨src, sp, tgt, tp⟩ := conn
    rw [wireConnections] at h ⊢
    dsimp only at h ⊢
    match hs : lookupObj comp_obj src with
    | Except.error e =>
      rw [hs] at h; simp at h
    | Except.ok csrc =>
      rw [hs] at h
      match ht : lookupObj comp_obj tgt with
      | Except.error e =>
        rw [ht] at h; simp at h
      | Except.ok ctgt =>
        rw [ht] at h
        dsimp only at h ⊢
        refine List.Forall₂.cons ?_ (ih h)
        cases sp <;> cases tp <;>
          simp [isStreamEvent, isMsgEvent, bothInt, bothStr]

theorem wireConnections_dispatch_witness :
    (wireConnections [("src", 0), ("snk", 1)]
        [⟨"src", PortVal.intPort 0, "snk", PortVal.intPort 0⟩,
         ⟨"src", PortVal.strPort "out", "snk", PortVal.strPort "in"⟩]).2 =
      Except.ok () ∧
    List.Forall₂
      (fun (conn : Conn) (ev : Event Nat) =>
        (isStreamEvent ev = bothInt conn.srcPort conn.tgtPort ∧
          isMsgEvent ev = !bothInt conn.srcPort conn.tgtPort) ∧
        (bothStr conn.srcPort conn.tgtPort = true → isMsgEvent ev = true))
      [⟨"src", PortVal.intPort 0, "snk", PortVal.intPort 0⟩,
       ⟨"src", PortVal.strPort "out", "snk", PortVal.strPort "in"⟩]
      (wireConnections [("src", 0), ("snk", 1)]
        [⟨"src", PortVal.intPort 0, "snk", PortVal.intPort 0⟩,
         ⟨"src", PortVal.strPort "out", "snk", PortVal.strPort "in"⟩]).1 :=
  ⟨rfl, wireConnections_dispatch _ _ rfl⟩

/-- C5: for every settings dictionary lacking the `connections` key — or any
of the three required keys `components`, `connections`, `simulation` — the
loader stops with a `KeyError` naming a required key, and its event trace is
empty: in particular no component is constructed. -/
theorem load_and_run_scenario_missing_key {A C : Type}
    (construct : String → A → Except LoadErr C) (settings : Scenario A)
    (h : settings.components = none ∨ settings.connections = none ∨
      settings.simulation = none) :
    (load_and_run_scenario construct settings).1 = [] ∧
    ∃ k, (load_and_run_scenario construct settings).2 =
        Except.error (LoadErr.keyError k) ∧
      (k = "components" ∨ k = "connections" ∨ k = "simulation") := by
  match hc : settings.components with
  | none =>
    rw [load_and_run_scenario, hc]
    exact ⟨rfl, "components", rfl, Or.inl rfl⟩
  | some comps =>
    match hn : settings.connections with
    | none =>
      rw [load_and_run_scenario, hc, hn]
      exact ⟨rfl, "connections", rfl, Or.inr (Or.inl rfl)⟩
    | some conns =>
      match hm : settings.simulation with
      | none =>
        rw [load_and_run_scenario, hc, hn, hm]
        exact ⟨rfl, "simulation", rfl, Or.inr (Or.inr rfl)⟩
      | some simm =>
        rw [hc, hn, hm] at h
        rcases h with h | h | h <;> exact absurd h (by simp)

theorem load_and_run_scenario_missing_key_witness :
    ((⟨some [("c1", "null_source", ())], none, some ⟨"data", none⟩⟩ :
        Scenario Unit).components = none ∨
      (⟨some [("c1", "null_source", ())], none, some ⟨"data", none⟩⟩ :
        Scenario Unit).connections = none ∨
      (⟨some [("c1", "null_source", ())], none, some ⟨"data", none⟩⟩ :
        Scenario Unit).simulation = none) ∧
    ((load_and_run_scenario (fun _ _ => Except.ok ())
        (⟨some [("c1", "null_source", ())], none, some ⟨"data", none⟩⟩ :
          Scenario Unit)).1 = ([] : List (Event Unit)) ∧
      ∃ k, (load_and_run_scenario (fun _ _ => Except.ok ())
          (⟨some [("c1", "null_source", ())], none, some ⟨"data", none⟩⟩ :
            Scenario Unit)).2 = Except.error (LoadErr.keyError k) ∧
        (k = "components" ∨ k = "connections" ∨ k = "simulation")) :=
  ⟨Or.inr (Or.inl rfl),
    load_and_run_scenario_missing_key _ _ (Or.inr (Or.inl rfl))⟩

/-- A UHD hardware call, as issued by the configuration helpers after their
precondition asserts. -/
inductive HwCall : Type where
  | usrpConstruct (device : String)
  | setSampRate (r : ℚ)
  | setTimeUnknownPps
  | setCenterFreq (f : ℚ)
  | setAntenna (a : String)
  | setRxAgc
  | setGain (g : ℚ)
deriving DecidableEq

/-- Embedding of `config_uhd_source`: the two `assert` statements
(`radio_freq > 0` first, then `sample_rate > 0`) run before any UHD call;
the trace lists the hardware calls issued in order. -/
def config_uhd_source (device : String) (sample_rate radio_freq gain : ℚ) :
    List HwCall × Except String Unit :=
  if radio_freq > 0 then
    if sample_rate > 0 then
      ([HwCall.usrpConstruct device, HwCall.setSampRate sample_rate,
        HwCall.setTimeUnknownPps, HwCall.setCenterFreq radio_freq,
        HwCall.setAntenna "RX2"] ++
        (if gain = -1 then [HwCall.setRxAgc] else [HwCall.setGain gain]),
       Except.ok ())
    else ([], Except.error "Receive sample rate should be > 0")
  else ([], Except.error "Receive tune frequency should be > 0")

/-- Embedding of `config_uhd_sink`, analogous to `config_uhd_source`. -/
def config_uhd_sink (device : String) (sample_rate radio_freq gain : ℚ) :
    List HwCall × Except String Unit :=
  if radio_freq > 0 then
    if sample_rate > 0 then
      ([HwCall.usrpConstruct device, HwCall.setSampRate sample_rate,
        HwCall.setTimeUnknownPps, HwCall.setCenterFreq radio_freq,
        HwCall.setAntenna "TX/RX", HwCall.setGain gain],
       Except.ok ())
    else ([], Except.error "Transmit sample rate should be > 0")
  else ([], Except.error "Transmit tune frequency should be > 0")

/-- C6: calling `config_uhd_source` or `config_uhd_sink` with a non-positive
tuning frequency or sample rate makes an assertion fail before any hardware
call is issued (empty hardware-call trace, assertion error); under the
precondition `radio_freq > 0` and `sample_rate > 0` the assertion branch is
unreachable (the calls succeed). -/
theorem config_uhd_guard (device : String) (sample_rate radio_freq gain : ℚ) :
    ((radio_freq ≤ 0 ∨ sample_rate ≤ 0) →
      (config_uhd_source device sample_rate radio_freq gain).1 = [] ∧
      (∃ m, (config_uhd_source device sample_rate radio_freq gain).2 =
        Except.error m) ∧
      (config_uhd_sink device sample_rate radio_freq gain).1 = [] ∧
      (∃ m, (config_uhd_sink device sample_rate radio_freq gain).2 =
        Except.error m)) ∧
    (0 < radio_freq → 0 < sample_rate →
      (config_uhd_source device sample_rate radio_freq gain).2 = Except.ok () ∧
      (config_uhd_sink device sample_rate radio_freq gain).2 = Except.ok ()) := by
  constructor
  · intro h
    rw [config_uhd_source, config_uhd_sink]
    rcases h with h | h
    · rw [if_neg (by exact not_lt.mpr h), if_neg (by exact not_lt.mpr h)]
      exact ⟨rfl, ⟨_, rfl⟩, rfl, ⟨_, rfl⟩⟩
    · by_cases hf : radio_freq > 0
      · rw [if_pos hf, if_pos hf, if_neg (by exact not_lt.mpr h),
          if_neg (by exact not_lt.mpr h)]
        exact ⟨rfl, ⟨_, rfl⟩, rfl, ⟨_, rfl⟩⟩
      · rw [if_neg hf, if_neg hf]
        exact ⟨rfl, ⟨_, rfl⟩, rfl, ⟨_, rfl⟩⟩
  · intro hf hs
    rw [config_uhd_source, config_uhd_sink, if_pos hf, if_pos hf,
      if_pos hs, if_pos hs]
    exact ⟨rfl, rfl⟩

theorem config_uhd_guard_witness :
    (((-1 : ℚ) ≤ 0 ∨ (1 : ℚ) ≤ 0) ∧
      ((config_uhd_source "b200" 1 (-1) 0).1 = [] ∧
        (∃ m, (config_uhd_source "b200" 1 (-1) 0).2 = Except.error m) ∧
        (config_uhd_sink "b200" 1 (-1) 0).1 = [] ∧
        (∃ m, (config_uhd_sink "b200" 1 (-1) 0).2 = Except.error m))) ∧
    ((0 : ℚ) < 1 ∧
      ((config_uhd_source "b200" 1 1 0).2 = Except.ok () ∧
        (config_uhd_sink "b200" 1 1 0).2 = Except.ok ())) :=
  ⟨⟨Or.inl (by decide),
      (config_uhd_guard "b200" 1 (-1) 0).1 (Or.inl (by decide))⟩,
    ⟨by decide, (config_uhd_guard "b200" 1 1 0).2 (by decide) (by decide)⟩⟩

end RunSimulatorCustom

namespace SendMessage

/-- The socket-lifecycle events of `send_tcp`: creating the initial socket,
establishing the connection (`socket.create_connection` rebinds `sock`),
transmitting via `sendall`, and the `finally: sock.close()`. -/
inductive SockEvent : Type where
  | created
  | connected
  | sent
  | closed
deriving DecidableEq

/-- The `message` argument: an `int` byte count (random payload) or a list
of bytes. -/
inductive MsgArg : Type where
  | count (n : Nat)
  | bytes (bs : List Nat)

/-- The `np.random.randint(0, 256, n)` payload, modelled by an rng oracle. -/
def resolveMessage (rng : Nat → List Nat) : MsgArg → List Nat
  | MsgArg.count n => rng n
  | MsgArg.bytes bs => bs

/-- Embedding of `send_tcp` from `gr_tools/send_message.py`: resolve the
message, create a socket, connect (`connectRes` is the outcome of
`socket.create_connection`, which raises on failure), then
`try: sock.sendall(message) finally: sock.close()`, with `sendRes` the
outcome of `sendall` on the resolved payload.  Returns the event trace and
the outcome; `Except.error` models a propagated exception. -/
def send_tcp (rng : Nat → List Nat) (connectRes : Except String Unit)
    (sendRes : List Nat → Except String Unit) (message : MsgArg) :
    List SockEvent × Except String Unit :=
  let msg := resolveMessage rng message
  match connectRes with
  | Except.error e => ([SockEvent.created], Except.error e)
  | Except.ok _ =>
    match sendRes msg with
    | Except.ok _ =>
      ([SockEvent.created, SockEvent.connected, SockEvent.sent,
        SockEvent.closed], Except.ok ())
    | Except.error e =>
      ([SockEvent.created, SockEvent.connected, SockEvent.closed],
       Except.error e)

/-- C8: whenever the TCP connection is established, `send_tcp` closes the
connected socket on every exit path: the event trace ends with the close
event both when `sendall` succeeds and when it raises — and in the latter
case the exception still propagates, after the close. -/
theorem send_tcp_closes (rng : Nat → List Nat) (connectRes : Except String Unit)
    (sendRes : List Nat → Except String Unit) (message : MsgArg)
    (h : connectRes = Except.ok ()) :
    (send_tcp rng connectRes sendRes message).1.getLast? = some SockEvent.closed ∧
    ((send_tcp rng connectRes sendRes message).2 = Except.ok () ∨
      ∃ e, sendRes (resolveMessage rng message) = Except.error e ∧
        (send_tcp rng connectRes sendRes message).2 = Except.error e) := by
  subst h
  rw [send_tcp]
  match hs : sendRes (resolveMessage rng message) with
  | Except.ok u => exact ⟨rfl, Or.inl rfl⟩
  | Except.error e => exact ⟨rfl, Or.inr ⟨e, rfl, rfl⟩⟩

theorem send_tcp_closes_witness :
    (Except.ok () : Except String Unit) = Except.ok () ∧
    ((send_tcp (fun n => List.replicate n 0) (Except.ok ())
        (fun _ => Except.error "ConnectionResetError")
        (MsgArg.count 3)).1.getLast? = some SockEvent.closed ∧
      ((send_tcp (fun n => List.replicate n 0) (Except.ok ())
          (fun _ => Except.error "ConnectionResetError")
          (MsgArg.count 3)).2 = Except.ok () ∨
        ∃ e, (fun _ => Except.error "ConnectionResetError")
            (resolveMessage (fun n => List.replicate n 0) (MsgArg.count 3)) =
            (Except.error e : Except String Unit) ∧
          (send_tcp (fun n => List.replicate n 0) (Except.ok ())
            (fun _ => Except.error "ConnectionResetError")
            (MsgArg.count 3)).2 = Except.error e)) :=
  ⟨rfl, send_tcp_closes _ _ _ _ rfl⟩

end SendMessage

namespace RunSim

/-- Observable actions of `run_msg_source` from `gr_tools/run_sim.py`. -/
inductive Event : Type where
  | topBlockCreated
  | strobeCreated (message : String) (periodMs : ℚ)
  | headCreated (nItems : Nat)
  | fileSinkCreated (path : String)
  | msgConnected
  | connected
  | started
  | itemsWritten (n : Nat)
deriving DecidableEq

/-- The Python exception raised by subscripting `None`. -/
inductive PyErr : Type where
  | typeError (msg : String)
deriving DecidableEq

/-- Embedding of `run_msg_source`: the blocks (top block, message strobe,
head limiter, file sink) are constructed first; then `connections[0]` is
evaluated — with the default `connections = None` this raises `TypeError`
before `top.start()` is ever reached.  With a connections pair, the message
link and the two stream links are wired, the flowgraph is started, and the
busy-wait poll on `head.nitems_written(0)` — behaviour of the external
engine — is abstracted as completing with `nItems` items written. -/
def run_msg_source (connections : Option (Nat × Nat)) (message : String)
    (periodMs : ℚ) (nItems : Nat) (path : String) :
    List Event × Except PyErr Unit :=
  let built := [Event.topBlockCreated, Event.strobeCreated message periodMs,
    Event.headCreated nItems, Event.fileSinkCreated path]
  match connections with
  | none =>
    (built, Except.error (PyErr.typeError "NoneType object is not subscriptable"))
  | some _ =>
    (built ++ [Event.msgConnected, Event.connected, Event.connected,
      Event.started, Event.itemsWritten nItems], Except.ok ())

/-- C10: calling `run_msg_source` with `connections` left at its default
`None` raises a `TypeError` (from subscripting `None`) before the flowgraph
is started or any output is produced; a connections tuple is effectively a
required argument despite the `None` default. -/
theorem run_msg_source_none (message : String) (periodMs : ℚ) (nItems : Nat)
    (path : String) :
    (∃ m, (run_msg_source none message periodMs nItems path).2 =
      Except.error (PyErr.typeError m)) ∧
    Event.started ∉ (run_msg_source none message periodMs nItems path).1 ∧
    ∀ n, Event.itemsWritten n ∉
      (run_msg_source none message periodMs nItems path).1 := by
  refine ⟨⟨_, rfl⟩, ?_, ?_⟩
  · simp [run_msg_source]
  · intro n
    simp [run_msg_source]

end RunSim

end GrTools
